import Mathlib

/-!
Verification of the cipher reference model in `src/model/siphash.py`.

The file embeds the `SipHash` class (which, despite its name, implements a
ChaCha-style ARX stream cipher over a 16-word state of 32-bit words) as
executable Lean definitions over `Nat`, with Python's `& 0xffffffff`
rendered as `% 4294967296`, and proves the specification claims about the
quarter-round, double-round, block processing, counter handling, byte/word
conversion and error behaviour.
-/

namespace SipHashModel

/-- Embeds the module-level constant `TAU` from the source. -/
def TAU : List Nat := [0x61707865, 0x3120646e, 0x79622d36, 0x6b206574]

/-- Embeds the module-level constant `SIGMA` from the source. -/
def SIGMA : List Nat := [0x61707865, 0x3320646e, 0x79622d32, 0x6b206574]

/-- The 16-word cipher state: the Python attributes `self.state` and `self.x`
are lists of 16 unsigned 32-bit integers, embedded as functions from
positions to words. -/
abbrev State16 := Fin 16 → Nat

/-- Embeds the straight-line ARX block of `SipHash._quarterround` (the
assignments computing `a0 … b3` from the four extracted words `a b c d`);
the Python mask `& 0xffffffff` is written `% 4294967296`. -/
def quarterround_core (a b c d : Nat) : Nat × Nat × Nat × Nat :=
  let a0 := (a + b) % 4294967296
  let d0 := d ^^^ a0
  let d1 := ((d0 <<< 16) + (d0 >>> 16)) % 4294967296
  let c0 := (c + d1) % 4294967296
  let b0 := b ^^^ c0
  let b1 := ((b0 <<< 12) + (b0 >>> 20)) % 4294967296
  let a1 := (a0 + b1) % 4294967296
  let d2 := d1 ^^^ a1
  let d3 := ((d2 <<< 8) + (d2 >>> 24)) % 4294967296
  let c1 := (c0 + d3) % 4294967296
  let b2 := b1 ^^^ c1
  let b3 := ((b2 <<< 7) + (b2 >>> 25)) % 4294967296
  (a1, b3, c1, d3)

/-- Embeds `SipHash._quarterround(ai, bi, ci, di)`: extract the four words at
the given indices of the working state `x`, run the ARX block, and write the
four results back at the same indices. -/
def quarterround (ai bi ci di : Fin 16) (x : State16) : State16 :=
  let r := quarterround_core (x ai) (x bi) (x ci) (x di)
  Function.update (Function.update (Function.update
    (Function.update x ai r.1) bi r.2.1) ci r.2.2.1) di r.2.2.2

/-- Embeds `SipHash._doubleround`: the column pass on index tuples
(0,4,8,12), (1,5,9,13), (2,6,10,14), (3,7,11,15) followed by the diagonal
pass on (0,5,10,15), (1,6,11,12), (2,7,8,13), (3,4,9,14), in source order. -/
def doubleround (x : State16) : State16 :=
  quarterround 3 4 9 14 <| quarterround 2 7 8 13 <|
  quarterround 1 6 11 12 <| quarterround 0 5 10 15 <|
  quarterround 3 7 11 15 <| quarterround 2 6 10 14 <|
  quarterround 1 5 9 13 <| quarterround 0 4 8 12 x

/-- Bitwise 32-bit rotate-left by `n`, as the specification describes the
`<<<n` operation: the low part shifted up (reduced to 32 bits) or-ed with the
high part shifted down. -/
def rotl32 (n w : Nat) : Nat := ((w <<< n) % 4294967296) ||| (w >>> (32 - n))

/-- The quarter-round exactly as the specification writes it: the ARX
sequence `a=a+b; d=rotl(d^a,16); c=c+d; b=rotl(b^c,12); a=a+b;
d=rotl(d^a,8); c=c+d; b=rotl(b^c,7)` with additions mod 2^32 and genuine
bitwise rotations. -/
def quarterround_arx (a b c d : Nat) : Nat × Nat × Nat × Nat :=
  let a1 := (a + b) % 4294967296
  let d1 := rotl32 16 (d ^^^ a1)
  let c1 := (c + d1) % 4294967296
  let b1 := rotl32 12 (b ^^^ c1)
  let a2 := (a1 + b1) % 4294967296
  let d2 := rotl32 8 (d1 ^^^ a2)
  let c2 := (c1 + d2) % 4294967296
  let b2 := rotl32 7 (b1 ^^^ c2)
  (a2, b2, c2, d2)

/-- Embeds `SipHash._w2b`: the little-endian four-byte list representation
of a 32-bit word, masks and shifts as in the source. -/
def w2b (word : Nat) : List Nat :=
  [word &&& 0x000000ff, (word &&& 0x0000ff00) >>> 8,
    (word &&& 0x00ff0000) >>> 16, (word &&& 0xff000000) >>> 24]

/-- Embeds `SipHash._b2w`: the little-endian 32-bit word built from a list
of four bytes (`bytes[0] + (bytes[1] << 8) + (bytes[2] << 16) +
(bytes[3] << 24)` masked to 32 bits). -/
def b2w (bs : List Nat) : Nat :=
  (bs.getD 0 0 + (bs.getD 1 0 <<< 8) + (bs.getD 2 0 <<< 16) +
    (bs.getD 3 0 <<< 24)) % 4294967296

/-- Embeds `SipHash._inc_counter` faithfully, including its operator
precedence: `self.block_counter[0] += 1 & 0xffffffff` adds the constant
`1 & 0xffffffff` (= 1) to the low word without any reduction of the sum, and
the carry test `not (self.block_counter[0] % 0xffffffff)` checks divisibility
by `0xffffffff` (that is 2^32 − 1, not 2^32). -/
def inc_counter (bc : Nat × Nat) : Nat × Nat :=
  let lo := bc.1 + (1 &&& 0xffffffff)
  if lo % 0xffffffff = 0 then (lo, bc.2 + (1 &&& 0xffffffff)) else (lo, bc.2)

/-- The attributes of a `SipHash` object that persist between `next` calls:
the 16-word internal state `self.state`, the round count `self.rounds`, and
the two-word block counter `self.block_counter`. (`self.x` is overwritten at
the start of every `next` call before it is read, and `self.verbose` only
selects debug printing, so neither carries information between calls.) -/
structure Engine where
  state : State16
  rounds : Nat
  block_counter : Nat × Nat

/-- The working state of one `next` call: the copy `self.x = self.state[:]`
after the loop `for i in range(int(self.rounds / 2)): self._doubleround()`.
(Python's `int(self.rounds / 2)` is the floor of `rounds / 2`, i.e. `Nat`
division.) -/
def working_state (e : Engine) : State16 :=
  doubleround^[e.rounds / 2] e.state

/-- The keystream state of one `next` call: the reassignment
`self.state = [((self.state[i] + self.x[i]) & 0xffffffff) for i in range(16)]`. -/
def keystream_state (e : Engine) : State16 :=
  fun i => (e.state i + working_state e i) % 4294967296

/-- The 64-byte serialization of the keystream state:
`for i in self.state: bytestate += self._w2b(i)`. -/
def keystream_bytes (e : Engine) : List Nat :=
  (List.finRange 16).flatMap fun i => w2b (keystream_state e i)

/-- Embeds `SipHash.next(data_in)`. The internal state is unconditionally
replaced by the keystream state; then the comprehension
`[data_in[i] ^ bytestate[i] for i in range(64)]` raises IndexError (modelled
as `none`) when `data_in` has fewer than 64 bytes — after the state
assignment but before `_inc_counter` runs — and otherwise produces the
64-byte output from the first 64 input bytes, after which the block counter
is incremented. The source contains no length check of its own. -/
def next (e : Engine) (data_in : List Nat) : Option (List Nat) × Engine :=
  if data_in.length < 64 then
    (none, { e with state := keystream_state e })
  else
    (some ((List.range 64).map fun i =>
        data_in.getD i 0 ^^^ (keystream_bytes e).getD i 0),
      { state := keystream_state e, rounds := e.rounds,
        block_counter := inc_counter e.block_counter })

/-- Resolution of the name `k` used by the body of `SipHash.set_key`: the
method's only bindings are `self` and `key`, and the module defines no
global `k`, so the lookup fails (Python raises NameError). -/
def lookup_k : Option (List Nat) := none

/-- Embeds `SipHash.set_key(key)`: each assignment reads `k[0]` or `k[1]`,
which first requires resolving the unbound name `k`; the NameError (modelled
as `none`) occurs before any of the four values `v0 … v3` is produced. -/
def set_key (key : List Nat) : Option (Nat × Nat × Nat × Nat) :=
  match lookup_k with
  | none => none
  | some k =>
      some (k.getD 0 0 ^^^ 0x736f6d6570736575,
        k.getD 1 0 ^^^ 0x646f72616e646f6d,
        k.getD 0 0 ^^^ 0x6c7967656e657261,
        k.getD 1 0 ^^^ 0x7465646279746573)

/-- Failure modes of the constructor observable in the source. -/
inductive PyErr where
  | attributeError_set_key_iv
  deriving DecidableEq

/-- Embeds `SipHash.__init__(key, iv, rounds=8)`: it assigns `self.state`,
`self.x`, `self.rounds`, `self.verbose` and then calls
`self.set_key_iv(key, iv)` — but no method `set_key_iv` is defined anywhere
in the source, so every construction raises AttributeError before an engine
is produced; the source performs no validation of `key`, `iv` or `rounds`
and defines no `InvalidKeyLength`, `InvalidIVLength` or `InvalidRoundCount`
error anywhere. -/
def init (key iv : List Nat) (rounds : Nat) : Except PyErr Engine :=
  Except.error PyErr.attributeError_set_key_iv

/-- A small concrete engine used by witnesses: all-zero state, 2 rounds. -/
def engine0 : Engine := { state := fun _ => 0, rounds := 2, block_counter := (0, 0) }

/-- A second concrete engine with a non-trivial state, used by witnesses and
counterexamples. -/
def engine1 : Engine :=
  { state := fun i => i.val + 1, rounds := 2, block_counter := (0, 0) }

/-- Closure of 32-bit words under xor. -/
theorem xor_lt_mod32 {x y : Nat} (hx : x < 4294967296) (hy : y < 4294967296) :
    x ^^^ y < 4294967296 := by
  have h : (4294967296 : Nat) = 2 ^ 32 := by norm_num
  rw [h] at hx hy ⊢
  exact Nat.xor_lt_two_pow hx hy

/-- A rotate-left of a 32-bit word is a 32-bit word. -/
theorem rotl32_lt (n : Nat) {w : Nat} (hw : w < 4294967296) :
    rotl32 n w < 4294967296 := by
  have h : (4294967296 : Nat) = 2 ^ 32 := by norm_num
  rw [rotl32, h]
  apply Nat.or_lt_two_pow
  · rw [← h]; exact Nat.mod_lt _ (by norm_num)
  · rw [← h]
    calc w >>> (32 - n) = w / 2 ^ (32 - n) := Nat.shiftRight_eq_div_pow w _
    _ ≤ w := Nat.div_le_self _ _
    _ < 4294967296 := hw

/-- Core arithmetic fact behind the rotation claims: for a 32-bit word `w`
and `0 < n < 32`, the shift-and-add expression used in the source equals the
bitwise rotate-left, because the two shifted parts occupy disjoint bit
positions. -/
theorem shift_add_mod_eq_rotl32 (n w : Nat) (hn0 : 0 < n) (hn : n < 32)
    (hw : w < 4294967296) :
    ((w <<< n) + (w >>> (32 - n))) % 4294967296 = rotl32 n w := by
  have hpow : 2 ^ (32 - n) * 2 ^ n = 4294967296 := by
    rw [← Nat.pow_add]
    have : 32 - n + n = 32 := by omega
    rw [this]
  have hdm : 2 ^ (32 - n) * (w / 2 ^ (32 - n)) + w % 2 ^ (32 - n) = w :=
    Nat.div_add_mod w _
  set q := w / 2 ^ (32 - n) with hq_def
  set r := w % 2 ^ (32 - n) with hr_def
  have hr : r < 2 ^ (32 - n) := Nat.mod_lt _ (Nat.two_pow_pos _)
  have hq : q < 2 ^ n := by
    rw [hq_def]
    rw [Nat.div_lt_iff_lt_mul (Nat.two_pow_pos _)]
    calc w < 4294967296 := hw
    _ = 2 ^ (32 - n) * 2 ^ n := hpow.symm
    _ = 2 ^ n * 2 ^ (32 - n) := Nat.mul_comm _ _
  have hw2 : w * 2 ^ n = 4294967296 * q + r * 2 ^ n := by
    calc w * 2 ^ n = (2 ^ (32 - n) * q + r) * 2 ^ n := by rw [hdm]
    _ = (2 ^ (32 - n) * 2 ^ n) * q + r * 2 ^ n := by ring
    _ = 4294967296 * q + r * 2 ^ n := by rw [hpow]
  have hbound : r * 2 ^ n + q < 4294967296 := by
    have h1 : (r + 1) * 2 ^ n ≤ 2 ^ (32 - n) * 2 ^ n :=
      Nat.mul_le_mul_right _ hr
    have h2 : (r + 1) * 2 ^ n = r * 2 ^ n + 2 ^ n := by ring
    omega
  have hsr : w >>> (32 - n) = q := by
    rw [Nat.shiftRight_eq_div_pow]
  have hsl : w <<< n = w * 2 ^ n := Nat.shiftLeft_eq w n
  have hmod : (w * 2 ^ n) % 4294967296 = r * 2 ^ n := by
    rw [hw2]
    rw [Nat.mul_comm 4294967296 q, Nat.add_comm, Nat.add_mul_mod_self_right]
    exact Nat.mod_eq_of_lt (by omega)
  rw [rotl32, hsr, hsl, hmod]
  have hor : r * 2 ^ n ||| q = r * 2 ^ n + q := by
    rw [Nat.mul_comm r (2 ^ n)]
    exact (Nat.mul_add_lt_is_or hq r).symm
  rw [hor, hw2]
  rw [Nat.add_assoc, Nat.mul_comm 4294967296 q, Nat.add_comm, Nat.add_mul_mod_self_right]
  exact Nat.mod_eq_of_lt hbound

/-- C10: for every 32-bit word `w` and each rotation amount n ∈ {16,12,8,7},
the shift-and-add expression `((w <<< n) + (w >>> (32-n))) % 2^32` used in
the quarter-round equals the bitwise 32-bit rotate-left of `w` by `n`. -/
theorem quarterround_shift_add_is_rotl (w n : Nat) (hw : w < 4294967296)
    (hn : n = 16 ∨ n = 12 ∨ n = 8 ∨ n = 7) :
    ((w <<< n) + (w >>> (32 - n))) % 4294967296 = rotl32 n w := by
  rcases hn with h | h | h | h <;> subst h <;>
    exact shift_add_mod_eq_rotl32 _ _ (by norm_num) (by norm_num) hw

/-- Witness for C10 at w = 12345, n = 16. -/
theorem quarterround_shift_add_is_rotl_witness :
    (12345 : Nat) < 4294967296 ∧
      (((12345 : Nat) <<< 16) + (12345 >>> (32 - 16))) % 4294967296 = rotl32 16 12345 :=
  ⟨by norm_num, quarterround_shift_add_is_rotl 12345 16 (by norm_num) (Or.inl rfl)⟩

/-- Specialization of the rotation identity to the amount 16 as it appears
literally in the source (`(d0 <<< 16) + (d0 >>> 16)`). -/
theorem rotadd16 {w : Nat} (hw : w < 4294967296) :
    ((w <<< 16) + (w >>> 16)) % 4294967296 = rotl32 16 w := by
  have h := shift_add_mod_eq_rotl32 16 w (by norm_num) (by norm_num) hw
  simpa using h

/-- Specialization of the rotation identity to the amount 12. -/
theorem rotadd12 {w : Nat} (hw : w < 4294967296) :
    ((w <<< 12) + (w >>> 20)) % 4294967296 = rotl32 12 w := by
  have h := shift_add_mod_eq_rotl32 12 w (by norm_num) (by norm_num) hw
  simpa using h

/-- Specialization of the rotation identity to the amount 8. -/
theorem rotadd8 {w : Nat} (hw : w < 4294967296) :
    ((w <<< 8) + (w >>> 24)) % 4294967296 = rotl32 8 w := by
  have h := shift_add_mod_eq_rotl32 8 w (by norm_num) (by norm_num) hw
  simpa using h

/-- Specialization of the rotation identity to the amount 7. -/
theorem rotadd7 {w : Nat} (hw : w < 4294967296) :
    ((w <<< 7) + (w >>> 25)) % 4294967296 = rotl32 7 w := by
  have h := shift_add_mod_eq_rotl32 7 w (by norm_num) (by norm_num) hw
  simpa using h

/-- C1: on four 32-bit words the quarter-round body of the source computes
exactly the ARX sequence of the specification, with every addition mod 2^32
and every rotation a 32-bit rotate-left with amounts 16, 12, 8, 7. -/
theorem quarterround_core_is_arx (a b c d : Nat)
    (ha : a < 4294967296) (hb : b < 4294967296)
    (hc : c < 4294967296) (hd : d < 4294967296) :
    quarterround_core a b c d = quarterround_arx a b c d := by
  simp only [quarterround_core, quarterround_arx]
  have ha1 : (a + b) % 4294967296 < 4294967296 := Nat.mod_lt _ (by norm_num)
  rw [rotadd16 (xor_lt_mod32 hd ha1)]
  have hd1 : rotl32 16 (d ^^^ (a + b) % 4294967296) < 4294967296 :=
    rotl32_lt 16 (xor_lt_mod32 hd ha1)
  have hc1 : (c + rotl32 16 (d ^^^ (a + b) % 4294967296)) % 4294967296 < 4294967296 :=
    Nat.mod_lt _ (by norm_num)
  rw [rotadd12 (xor_lt_mod32 hb hc1)]
  have hb1 : rotl32 12 (b ^^^ (c + rotl32 16 (d ^^^ (a + b) % 4294967296)) % 4294967296)
      < 4294967296 := rotl32_lt 12 (xor_lt_mod32 hb hc1)
  have ha2 : ((a + b) % 4294967296 +
      rotl32 12 (b ^^^ (c + rotl32 16 (d ^^^ (a + b) % 4294967296)) % 4294967296))
      % 4294967296 < 4294967296 := Nat.mod_lt _ (by norm_num)
  rw [rotadd8 (xor_lt_mod32 hd1 ha2)]
  have hd2 : rotl32 8 (rotl32 16 (d ^^^ (a + b) % 4294967296) ^^^
      ((a + b) % 4294967296 +
        rotl32 12 (b ^^^ (c + rotl32 16 (d ^^^ (a + b) % 4294967296)) % 4294967296))
        % 4294967296) < 4294967296 := rotl32_lt 8 (xor_lt_mod32 hd1 ha2)
  have hc2 : ((c + rotl32 16 (d ^^^ (a + b) % 4294967296)) % 4294967296 +
      rotl32 8 (rotl32 16 (d ^^^ (a + b) % 4294967296) ^^^
        ((a + b) % 4294967296 +
          rotl32 12 (b ^^^ (c + rotl32 16 (d ^^^ (a + b) % 4294967296)) % 4294967296))
          % 4294967296)) % 4294967296 < 4294967296 := Nat.mod_lt _ (by norm_num)
  rw [rotadd7 (xor_lt_mod32 hb1 hc2)]

/-- Witness for C1 at (a,b,c,d) = (1,2,3,4). -/
theorem quarterround_core_is_arx_witness :
    ((1 : Nat) < 4294967296 ∧ (2 : Nat) < 4294967296 ∧
      (3 : Nat) < 4294967296 ∧ (4 : Nat) < 4294967296) ∧
      quarterround_core 1 2 3 4 = quarterround_arx 1 2 3 4 :=
  ⟨⟨by norm_num, by norm_num, by norm_num, by norm_num⟩,
    quarterround_core_is_arx 1 2 3 4 (by norm_num) (by norm_num) (by norm_num) (by norm_num)⟩

/-- Column-pass commutation: tuples (0,4,8,12) and (1,5,9,13). -/
theorem qr_comm_c01 (x : State16) :
    quarterround 0 4 8 12 (quarterround 1 5 9 13 x) =
      quarterround 1 5 9 13 (quarterround 0 4 8 12 x) := by
  funext i; fin_cases i <;> simp [quarterround, Function.update_apply]

/-- Column-pass commutation: tuples (0,4,8,12) and (2,6,10,14). -/
theorem qr_comm_c02 (x : State16) :
    quarterround 0 4 8 12 (quarterround 2 6 10 14 x) =
      quarterround 2 6 10 14 (quarterround 0 4 8 12 x) := by
  funext i; fin_cases i <;> simp [quarterround, Function.update_apply]

/-- Column-pass commutation: tuples (0,4,8,12) and (3,7,11,15). -/
theorem qr_comm_c03 (x : State16) :
    quarterround 0 4 8 12 (quarterround 3 7 11 15 x) =
      quarterround 3 7 11 15 (quarterround 0 4 8 12 x) := by
  funext i; fin_cases i <;> simp [quarterround, Function.update_apply]

/-- Column-pass commutation: tuples (1,5,9,13) and (2,6,10,14). -/
theorem qr_comm_c12 (x : State16) :
    quarterround 1 5 9 13 (quarterround 2 6 10 14 x) =
      quarterround 2 6 10 14 (quarterround 1 5 9 13 x) := by
  funext i; fin_cases i <;> simp [quarterround, Function.update_apply]

/-- Column-pass commutation: tuples (1,5,9,13) and (3,7,11,15). -/
theorem qr_comm_c13 (x : State16) :
    quarterround 1 5 9 13 (quarterround 3 7 11 15 x) =
      quarterround 3 7 11 15 (quarterround 1 5 9 13 x) := by
  funext i; fin_cases i <;> simp [quarterround, Function.update_apply]

/-- Column-pass commutation: tuples (2,6,10,14) and (3,7,11,15). -/
theorem qr_comm_c23 (x : State16) :
    quarterround 2 6 10 14 (quarterround 3 7 11 15 x) =
      quarterround 3 7 11 15 (quarterround 2 6 10 14 x) := by
  funext i; fin_cases i <;> simp [quarterround, Function.update_apply]

/-- Diagonal-pass commutation: tuples (0,5,10,15) and (1,6,11,12). -/
theorem qr_comm_d01 (x : State16) :
    quarterround 0 5 10 15 (quarterround 1 6 11 12 x) =
      quarterround 1 6 11 12 (quarterround 0 5 10 15 x) := by
  funext i; fin_cases i <;> simp [quarterround, Function.update_apply]

/-- Diagonal-pass commutation: tuples (0,5,10,15) and (2,7,8,13). -/
theorem qr_comm_d02 (x : State16) :
    quarterround 0 5 10 15 (quarterround 2 7 8 13 x) =
      quarterround 2 7 8 13 (quarterround 0 5 10 15 x) := by
  funext i; fin_cases i <;> simp [quarterround, Function.update_apply]

/-- Diagonal-pass commutation: tuples (0,5,10,15) and (3,4,9,14). -/
theorem qr_comm_d03 (x : State16) :
    quarterround 0 5 10 15 (quarterround 3 4 9 14 x) =
      quarterround 3 4 9 14 (quarterround 0 5 10 15 x) := by
  funext i; fin_cases i <;> simp [quarterround, Function.update_apply]

/-- Diagonal-pass commutation: tuples (1,6,11,12) and (2,7,8,13). -/
theorem qr_comm_d12 (x : State16) :
    quarterround 1 6 11 12 (quarterround 2 7 8 13 x) =
      quarterround 2 7 8 13 (quarterround 1 6 11 12 x) := by
  funext i; fin_cases i <;> simp [quarterround, Function.update_apply]

/-- Diagonal-pass commutation: tuples (1,6,11,12) and (3,4,9,14). -/
theorem qr_comm_d13 (x : State16) :
    quarterround 1 6 11 12 (quarterround 3 4 9 14 x) =
      quarterround 3 4 9 14 (quarterround 1 6 11 12 x) := by
  funext i; fin_cases i <;> simp [quarterround, Function.update_apply]

/-- Diagonal-pass commutation: tuples (2,7,8,13) and (3,4,9,14). -/
theorem qr_comm_d23 (x : State16) :
    quarterround 2 7 8 13 (quarterround 3 4 9 14 x) =
      quarterround 3 4 9 14 (quarterround 2 7 8 13 x) := by
  funext i; fin_cases i <;> simp [quarterround, Function.update_apply]

/-- C2: a double-round applies exactly eight quarter-rounds — the column pass
on (0,4,8,12), (1,5,9,13), (2,6,10,14), (3,7,11,15) followed by the diagonal
pass on (0,5,10,15), (1,6,11,12), (2,7,8,13), (3,4,9,14) — and within each
pass any two of the four quarter-rounds commute (their index sets are
disjoint), so the order inside a pass does not affect the result. -/
theorem doubleround_two_passes_and_pass_order_free :
    (∀ x : State16, doubleround x =
      quarterround 3 4 9 14 (quarterround 2 7 8 13 (quarterround 1 6 11 12
        (quarterround 0 5 10 15 (quarterround 3 7 11 15 (quarterround 2 6 10 14
          (quarterround 1 5 9 13 (quarterround 0 4 8 12 x)))))))) ∧
    (∀ x : State16,
      quarterround 0 4 8 12 (quarterround 1 5 9 13 x) =
        quarterround 1 5 9 13 (quarterround 0 4 8 12 x)) ∧
    (∀ x : State16,
      quarterround 0 4 8 12 (quarterround 2 6 10 14 x) =
        quarterround 2 6 10 14 (quarterround 0 4 8 12 x)) ∧
    (∀ x : State16,
      quarterround 0 4 8 12 (quarterround 3 7 11 15 x) =
        quarterround 3 7 11 15 (quarterround 0 4 8 12 x)) ∧
    (∀ x : State16,
      quarterround 1 5 9 13 (quarterround 2 6 10 14 x) =
        quarterround 2 6 10 14 (quarterround 1 5 9 13 x)) ∧
    (∀ x : State16,
      quarterround 1 5 9 13 (quarterround 3 7 11 15 x) =
        quarterround 3 7 11 15 (quarterround 1 5 9 13 x)) ∧
    (∀ x : State16,
      quarterround 2 6 10 14 (quarterround 3 7 11 15 x) =
        quarterround 3 7 11 15 (quarterround 2 6 10 14 x)) ∧
    (∀ x : State16,
      quarterround 0 5 10 15 (quarterround 1 6 11 12 x) =
        quarterround 1 6 11 12 (quarterround 0 5 10 15 x)) ∧
    (∀ x : State16,
      quarterround 0 5 10 15 (quarterround 2 7 8 13 x) =
        quarterround 2 7 8 13 (quarterround 0 5 10 15 x)) ∧
    (∀ x : State16,
      quarterround 0 5 10 15 (quarterround 3 4 9 14 x) =
        quarterround 3 4 9 14 (quarterround 0 5 10 15 x)) ∧
    (∀ x : State16,
      quarterround 1 6 11 12 (quarterround 2 7 8 13 x) =
        quarterround 2 7 8 13 (quarterround 1 6 11 12 x)) ∧
    (∀ x : State16,
      quarterround 1 6 11 12 (quarterround 3 4 9 14 x) =
        quarterround 3 4 9 14 (quarterround 1 6 11 12 x)) ∧
    (∀ x : State16,
      quarterround 2 7 8 13 (quarterround 3 4 9 14 x) =
        quarterround 3 4 9 14 (quarterround 2 7 8 13 x)) :=
  ⟨fun _ => rfl, qr_comm_c01, qr_comm_c02, qr_comm_c03, qr_comm_c12, qr_comm_c13,
    qr_comm_c23, qr_comm_d01, qr_comm_d02, qr_comm_d03, qr_comm_d12, qr_comm_d13,
    qr_comm_d23⟩

/-- C9: for every key argument, `set_key` fails before producing any result,
because its body references the undefined name `k`; the error is reached on
all inputs. -/
theorem set_key_always_fails (key : List Nat) : set_key key = none := rfl

/-- C5 (code evidence): construction raises AttributeError for every key,
iv and rounds — including a valid 16-byte key with an 8-byte iv and even
rounds ≥ 2 — because `__init__` calls the undefined method `set_key_iv`;
consequently none of `InvalidKeyLength`, `InvalidIVLength`,
`InvalidRoundCount` is ever raised and no construction succeeds. -/
theorem init_always_attribute_error (key iv : List Nat) (rounds : Nat) :
    init key iv rounds = Except.error PyErr.attributeError_set_key_iv := rfl

/-- C4 (code evidence): the counter increment of the source increments the
high word as soon as the low word is divisible by 2^32 − 1 even though it
did not wrap (first conjunct: low went 0xfffffffe → 0xffffffff, yet high
became 1), and lets the low word grow past 2^32 without ever wrapping to 0
(second conjunct: low became 0x100000000 and high stayed 0); the low word
does not remain < 2^32 (third conjunct). -/
theorem inc_counter_bug_eval :
    inc_counter (4294967294, 0) = (4294967295, 1) ∧
    inc_counter (4294967295, 0) = (4294967296, 0) ∧
    ¬ (inc_counter (4294967295, 0)).1 < 4294967296 := by decide

/-- Division of a bitwise conjunction by a power of two distributes over
both arguments. -/
theorem and_div_pow (a b n : Nat) : (a &&& b) / 2 ^ n = a / 2 ^ n &&& b / 2 ^ n := by
  induction n with
  | zero => simp
  | succ k ih =>
    rw [Nat.pow_succ, ← Nat.div_div_eq_div_mul, ← Nat.div_div_eq_div_mul,
      ← Nat.div_div_eq_div_mul, ih, Nat.and_div_two]

/-- Masking with `0xff` extracts byte 0. -/
theorem and_mask0 (w : Nat) : w &&& 0xff = w % 256 := by
  have h := Nat.and_pow_two_sub_one_eq_mod w 8
  norm_num at h
  exact h

/-- Masking with `0xff00` and shifting extracts byte 1. -/
theorem and_mask8 (w : Nat) : (w &&& 0xff00) >>> 8 = w / 256 % 256 := by
  have h1 : (w &&& 0xff00) >>> 8 = (w &&& 0xff00) / 2 ^ 8 := Nat.shiftRight_eq_div_pow _ _
  have h2 := and_div_pow w 0xff00 8
  have h3 := Nat.and_pow_two_sub_one_eq_mod (w / 256) 8
  norm_num at h1 h2 h3
  rw [h1, h2, h3]

/-- Masking with `0xff0000` and shifting extracts byte 2. -/
theorem and_mask16 (w : Nat) : (w &&& 0xff0000) >>> 16 = w / 65536 % 256 := by
  have h1 : (w &&& 0xff0000) >>> 16 = (w &&& 0xff0000) / 2 ^ 16 :=
    Nat.shiftRight_eq_div_pow _ _
  have h2 := and_div_pow w 0xff0000 16
  have h3 := Nat.and_pow_two_sub_one_eq_mod (w / 65536) 8
  norm_num at h1 h2 h3
  rw [h1, h2, h3]

/-- Masking with `0xff000000` and shifting extracts byte 3. -/
theorem and_mask24 (w : Nat) : (w &&& 0xff000000) >>> 24 = w / 16777216 % 256 := by
  have h1 : (w &&& 0xff000000) >>> 24 = (w &&& 0xff000000) / 2 ^ 24 :=
    Nat.shiftRight_eq_div_pow _ _
  have h2 := and_div_pow w 0xff000000 24
  have h3 := Nat.and_pow_two_sub_one_eq_mod (w / 16777216) 8
  norm_num at h1 h2 h3
  rw [h1, h2, h3]

/-- C8: byte/word conversion is little-endian and invertible. For bytes
b0..b3 < 256, `_b2w` returns `b0 ||| b1<<8 ||| b2<<16 ||| b3<<24`; for a
word w < 2^32, `_b2w (_w2b w) = w`; and `_w2b (_b2w [b0,b1,b2,b3])` returns
the original four bytes. -/
theorem b2w_w2b_little_endian_roundtrip (b0 b1 b2 b3 w : Nat)
    (h0 : b0 < 256) (h1 : b1 < 256) (h2 : b2 < 256) (h3 : b3 < 256)
    (hw : w < 4294967296) :
    b2w [b0, b1, b2, b3] = ((b0 ||| b1 <<< 8) ||| b2 <<< 16) ||| b3 <<< 24 ∧
    b2w (w2b w) = w ∧
    w2b (b2w [b0, b1, b2, b3]) = [b0, b1, b2, b3] := by
  refine ⟨?_, ?_, ?_⟩
  · have h0' : b0 < 2 ^ 8 := by omega
    have s1 : b0 ||| b1 <<< 8 = 2 ^ 8 * b1 + b0 := by
      rw [Nat.shiftLeft_eq, Nat.lor_comm, Nat.mul_comm]
      exact (Nat.mul_add_lt_is_or h0' b1).symm
    have s1lt : 2 ^ 8 * b1 + b0 < 2 ^ 16 := by omega
    have s2 : (b0 ||| b1 <<< 8) ||| b2 <<< 16 = 2 ^ 16 * b2 + (2 ^ 8 * b1 + b0) := by
      rw [s1, Nat.shiftLeft_eq, Nat.lor_comm, Nat.mul_comm]
      exact (Nat.mul_add_lt_is_or s1lt b2).symm
    have s2lt : 2 ^ 16 * b2 + (2 ^ 8 * b1 + b0) < 2 ^ 24 := by omega
    have s3 : ((b0 ||| b1 <<< 8) ||| b2 <<< 16) ||| b3 <<< 24
        = 2 ^ 24 * b3 + (2 ^ 16 * b2 + (2 ^ 8 * b1 + b0)) := by
      rw [s2, Nat.shiftLeft_eq, Nat.lor_comm, Nat.mul_comm]
      exact (Nat.mul_add_lt_is_or s2lt b3).symm
    rw [s3]
    have hb : b2w [b0, b1, b2, b3] =
        (b0 + (b1 <<< 8) + (b2 <<< 16) + (b3 <<< 24)) % 4294967296 := rfl
    rw [hb, Nat.shiftLeft_eq, Nat.shiftLeft_eq, Nat.shiftLeft_eq]
    rw [Nat.mod_eq_of_lt (by omega)]
    omega
  · have hb : b2w (w2b w) = ((w &&& 0xff) + (((w &&& 0xff00) >>> 8) <<< 8) +
        (((w &&& 0xff0000) >>> 16) <<< 16) +
        (((w &&& 0xff000000) >>> 24) <<< 24)) % 4294967296 := rfl
    rw [hb, and_mask0, and_mask8, and_mask16, and_mask24,
      Nat.shiftLeft_eq, Nat.shiftLeft_eq, Nat.shiftLeft_eq]
    rw [Nat.mod_eq_of_lt (by omega)]
    omega
  · have hb : b2w [b0, b1, b2, b3] =
        (b0 + (b1 <<< 8) + (b2 <<< 16) + (b3 <<< 24)) % 4294967296 := rfl
    rw [hb, Nat.shiftLeft_eq, Nat.shiftLeft_eq, Nat.shiftLeft_eq]
    rw [Nat.mod_eq_of_lt (by omega)]
    simp only [w2b]
    rw [and_mask0, and_mask8, and_mask16, and_mask24]
    simp only [List.cons.injEq, and_true]
    exact ⟨by omega, by omega, by omega, by omega⟩

/-- Witness for C8 at (b0,b1,b2,b3) = (0x78,0x56,0x34,0x12), w = 0x12345678. -/
theorem b2w_w2b_little_endian_roundtrip_witness :
    ((0x78 : Nat) < 256 ∧ (0x56 : Nat) < 256 ∧ (0x34 : Nat) < 256 ∧
      (0x12 : Nat) < 256 ∧ (0x12345678 : Nat) < 4294967296) ∧
    (b2w [0x78, 0x56, 0x34, 0x12] =
        ((0x78 ||| 0x56 <<< 8) ||| 0x34 <<< 16) ||| 0x12 <<< 24 ∧
      b2w (w2b 0x12345678) = 0x12345678 ∧
      w2b (b2w [0x78, 0x56, 0x34, 0x12]) = [0x78, 0x56, 0x34, 0x12]) :=
  ⟨⟨by norm_num, by norm_num, by norm_num, by norm_num, by norm_num⟩,
    b2w_w2b_little_endian_roundtrip 0x78 0x56 0x34 0x12 0x12345678
      (by norm_num) (by norm_num) (by norm_num) (by norm_num) (by norm_num)⟩

/-- Reading index `i < n` out of a map over `List.range n` gives the mapped
value. -/
theorem getD_map_range {α : Type} (f : Nat → α) (d : α) {n i : Nat} (h : i < n) :
    ((List.range n).map f).getD i d = f i := by
  simp [List.getD_eq_getElem?_getD, List.getElem?_range h]

/-- A list of length `n` is recovered by reading its first `n` positions. -/
theorem map_range_getD {α : Type} (l : List α) (d : α) {n : Nat} (h : l.length = n) :
    (List.range n).map (fun i => l.getD i d) = l := by
  apply List.ext_getElem (by simp [h])
  intro i h1 h2
  simp [List.getD_eq_getElem?_getD, List.getElem?_eq_getElem h2]

/-- C3: for an engine with 32-bit state words, an even round count ≥ 2 and a
64-byte input, `next` succeeds; the new internal state is the keystream
state, i.e. the element-wise sum mod 2^32 of the old internal state and the
working state obtained by applying rounds/2 double-rounds to a copy of the
internal state; the keystream state is serialized to 64 little-endian bytes;
and output byte i equals input byte i xor keystream byte i for all i < 64. -/
theorem next_spec (e : Engine) (d : List Nat)
    (hst : ∀ i, e.state i < 4294967296)
    (hev : e.rounds % 2 = 0) (h2 : 2 ≤ e.rounds) (hd : d.length = 64) :
    ∃ out : List Nat,
      (next e d).1 = some out ∧
      out.length = 64 ∧
      (∀ i : Nat, i < 64 →
        out.getD i 0 = d.getD i 0 ^^^ (keystream_bytes e).getD i 0) ∧
      (next e d).2.state = keystream_state e ∧
      keystream_state e =
        (fun i => (e.state i + (doubleround^[e.rounds / 2] e.state) i) % 4294967296) ∧
      keystream_bytes e =
        ((List.finRange 16).flatMap fun i => w2b (keystream_state e i)) ∧
      (keystream_bytes e).length = 64 := by
  refine ⟨(List.range 64).map fun i => d.getD i 0 ^^^ (keystream_bytes e).getD i 0,
    ?_, ?_, ?_, ?_, rfl, rfl, ?_⟩
  · rw [next, if_neg (by omega)]
  · simp
  · intro i hi
    exact getD_map_range _ _ hi
  · rw [next, if_neg (by omega)]
  · rfl

/-- Witness for C3: the all-zero engine with 2 rounds on a 64-byte zero block. -/
theorem next_spec_witness :
    ((∀ i, engine0.state i < 4294967296) ∧ engine0.rounds % 2 = 0 ∧
      2 ≤ engine0.rounds ∧ (List.replicate 64 (0 : Nat)).length = 64) ∧
    (∃ out : List Nat,
      (next engine0 (List.replicate 64 0)).1 = some out ∧
      out.length = 64 ∧
      (∀ i : Nat, i < 64 →
        out.getD i 0 = (List.replicate 64 (0 : Nat)).getD i 0 ^^^
          (keystream_bytes engine0).getD i 0) ∧
      (next engine0 (List.replicate 64 0)).2.state = keystream_state engine0 ∧
      keystream_state engine0 =
        (fun i => (engine0.state i +
          (doubleround^[engine0.rounds / 2] engine0.state) i) % 4294967296) ∧
      keystream_bytes engine0 =
        ((List.finRange 16).flatMap fun i => w2b (keystream_state engine0 i)) ∧
      (keystream_bytes engine0).length = 64) :=
  ⟨⟨by decide, rfl, by decide, by decide⟩,
    next_spec engine0 (List.replicate 64 0) (by decide) rfl (by decide) (by decide)⟩

/-- C7: encrypt-then-decrypt is the identity. If a 64-byte block p encrypts
to c under an engine, then an engine re-initialized to the same internal
state (same key, iv, rounds and counter determine the same state) maps c
back to p, because both calls derive the identical keystream from the same
state and xor is self-inverse. -/
theorem next_self_inverse (e : Engine) (p c : List Nat)
    (hp : p.length = 64) (hc : (next e p).1 = some c) :
    (next e c).1 = some p := by
  rw [next, if_neg (by omega)] at hc
  simp only [Option.some.injEq] at hc
  have hclen : c.length = 64 := by rw [← hc]; simp
  rw [next, if_neg (by omega)]
  simp only [Option.some.injEq]
  have hstep : ∀ i, i < 64 →
      c.getD i 0 = p.getD i 0 ^^^ (keystream_bytes e).getD i 0 := by
    intro i hi
    rw [← hc, getD_map_range _ _ hi]
  calc (List.range 64).map (fun i => c.getD i 0 ^^^ (keystream_bytes e).getD i 0)
      = (List.range 64).map (fun i => p.getD i 0) := by
        apply List.map_congr_left
        intro i hi
        rw [hstep i (List.mem_range.mp hi), Nat.xor_assoc, Nat.xor_self, Nat.xor_zero]
    _ = p := map_range_getD p 0 hp

/-- Witness for C7: the all-zero block is a fixed point of the all-zero
engine, giving a concrete encrypt-then-decrypt pair. -/
theorem next_self_inverse_witness :
    ((List.replicate 64 (0 : Nat)).length = 64 ∧
      (next engine0 (List.replicate 64 0)).1 = some (List.replicate 64 0)) ∧
    (next engine0 (List.replicate 64 0)).1 = some (List.replicate 64 0) :=
  ⟨⟨by decide, by decide⟩,
    next_self_inverse engine0 (List.replicate 64 0) (List.replicate 64 0)
      (by decide) (by decide)⟩

/-- C6 (counterexample): an input of 65 bytes — a length different from
64 — is not rejected: `next` succeeds on it, so no `InvalidBlockLength`
failure exists; moreover on a 63-byte input, which does fail, the internal
state has already been mutated, so the engine is not left unchanged. -/
theorem next_accepts_oversized_input :
    (next engine1 (List.replicate 65 0)).1.isSome = true ∧
    (next engine1 (List.replicate 63 0)).1 = none ∧
    (next engine1 (List.replicate 63 0)).2.state 0 ≠ engine1.state 0 := by
  decide

/-- C6 (amended): `next` fails exactly when the input has fewer than
64 bytes (an IndexError, the source has no length validation); on failure
the block counter is unchanged but the internal state has already been
replaced by the keystream state; any input of length ≥ 64 is accepted and
only its first 64 bytes are used. -/
theorem next_length_behavior (e : Engine) (d : List Nat) :
    ((next e d).1 = none ↔ d.length < 64) ∧
    ((next e d).2.block_counter =
      if d.length < 64 then e.block_counter else inc_counter e.block_counter) ∧
    ((next e d).2.state = keystream_state e) ∧
    ((next e d).1 = (next e (d.take 64)).1) := by
  by_cases h : d.length < 64
  · have ht : d.take 64 = d := List.take_of_length_le (by omega)
    rw [next, if_pos h, ht, next, if_pos h]
    simp [h]
  · refine ⟨?_, ?_, ?_, ?_⟩
    · rw [next, if_neg h]; simp [h]
    · rw [next, if_neg h]; simp [h]
    · rw [next, if_neg h]
    · rw [next, if_neg h, next, if_neg (by simp; omega)]
      simp only [Prod.fst]
      congr 1
      apply List.map_congr_left
      intro i hi
      have hi' : i < 64 := List.mem_range.mp hi
      congr 1
      simp [List.getD_eq_getElem?_getD, List.getElem?_take_of_lt hi']

end SipHashModel
